import Mathlib

/-!
Verification of the maintenance service of the fleet-management backend.

The repository sources under verification are:
  src/maintenanceService/config.py
  src/maintenanceService/app/utils/auth.py
  src/maintenanceService/app/routes/maintainance_route.py
  src/maintenanceService/app/routes/maintenance_api.py

The service layer (app/services/maintainance_service.py) and the marshmallow
schemas are referenced by the routes but are not part of the sources; where a
claim depends on them, the corresponding definition is modelled from the spec
(section 4.1 Status Derivation Engine, 4.2 Query and Aggregation Layer) and is
marked `Modelled from the spec:` in its doc comment.  Everything else is a
direct shallow embedding of the Python code.
-/

/-! ## Status derivation engine (spec-modelled) -/

/-- Lifecycle status of a maintenance item, from the status enum in the data
model (spec section 3; also the Swagger enum in maintenance_api.py). -/
inductive Status
  | overdue
  | due_soon
  | scheduled
  | in_progress
  | completed
  | cancelled
deriving DecidableEq

/-- A status is terminal when it is completed or cancelled (spec glossary:
terminal status is sticky and never auto-overwritten). -/
def Status.isTerminal : Status → Bool
  | .completed => true
  | .cancelled => true
  | _ => false

/-- Modelled from the spec: the Status Derivation Engine of section 4.1.  The
implementing file app/services/maintainance_service.py is not among the
sources, so this follows the spec text verbatim: terminal statuses are
unchanged; else overdue when the due date is past or the mileage is reached;
else due_soon when within the configured soon window (days) or mileage margin;
else scheduled, or in_progress when explicitly set and not yet due.  Dates are
days as integers; now is the current day. -/
def recomputeStatus (soonWindow mileageMargin : Nat) (dueDate : Int)
    (dueMileage currentMileage : Nat) (prior : Status) (now : Int) : Status :=
  if prior.isTerminal then prior
  else if dueDate < now ∨ dueMileage ≤ currentMileage then .overdue
  else if dueDate ≤ now + soonWindow ∨ dueMileage ≤ currentMileage + mileageMargin then
    .due_soon
  else if prior = .in_progress then .in_progress
  else .scheduled

/-- A stored maintenance item, restricted to the fields the status derivation
and bulk update read (spec section 3 data model). -/
structure MaintenanceItem where
  id : String
  dueDate : Int
  dueMileage : Nat
  currentMileage : Nat
  status : Status
deriving DecidableEq

/-- Modelled from the spec: recomputing one item during the bulk scan, writing
the derived status back into the record. -/
def refreshStatus (soonWindow mileageMargin : Nat) (now : Int)
    (it : MaintenanceItem) : MaintenanceItem :=
  { it with status := (recomputeStatus soonWindow mileageMargin it.dueDate
      it.dueMileage it.currentMileage it.status now) }

/-- Modelled from the spec: MaintenanceService.update_maintenance_status_bulk
(section 4.1): scan all items, recompute each status, persist only items whose
status changed, and return the count of updated items.  The store is the list
of items; the result is the new store plus the updated count. -/
def update_maintenance_status_bulk (soonWindow mileageMargin : Nat) (now : Int)
    (store : List MaintenanceItem) : List MaintenanceItem × Nat :=
  (store.map (refreshStatus soonWindow mileageMargin now),
   store.countP (fun it =>
     (refreshStatus soonWindow mileageMargin now it).status != it.status))

/-! ## Theorems for the status derivation engine -/

/-- Recomputing a status is idempotent in the prior-status argument: the
derived status, fed back in with the same date and mileage inputs, derives to
itself. -/
theorem recomputeStatus_idem (sw mm : Nat) (dd : Int) (dm cm : Nat)
    (s : Status) (now : Int) :
    recomputeStatus sw mm dd dm cm (recomputeStatus sw mm dd dm cm s now) now
      = recomputeStatus sw mm dd dm cm s now := by
  unfold recomputeStatus
  by_cases hterm : s.isTerminal
  · simp [hterm]
  · simp only [hterm, Bool.false_eq_true, if_false]
    by_cases hover : dd < now ∨ dm ≤ cm
    · simp [hover, Status.isTerminal]
    · simp only [hover, if_false]
      by_cases hsoon : dd ≤ now + ↑sw ∨ dm ≤ cm + mm
      · simp [hsoon, Status.isTerminal]
      · simp only [hsoon, if_false]
        by_cases hip : s = Status.in_progress
        · simp [hip, Status.isTerminal, hover, hsoon]
        · simp [hip, Status.isTerminal, hover, hsoon]

/-- C1: the recomputed status is a pure function of
(due date, due mileage, current mileage, prior status, now) together with the
configured soon window and mileage margin, and follows exactly the case
analysis of the spec: terminal statuses are returned unchanged; otherwise a
past due date or reached mileage gives overdue; otherwise being within the
soon window or mileage margin gives due_soon; otherwise in_progress is kept
when explicitly set, and every other prior status derives to scheduled.
Purity is inherent in the model: recomputeStatus is a function of exactly
these arguments, so equal inputs give equal outputs by definition. -/
theorem C1_status_derivation (sw mm : Nat) (dd : Int) (dm cm : Nat)
    (prior : Status) (now : Int) :
    (prior.isTerminal = true →
      recomputeStatus sw mm dd dm cm prior now = prior) ∧
    (prior.isTerminal = false → (dd < now ∨ dm ≤ cm) →
      recomputeStatus sw mm dd dm cm prior now = .overdue) ∧
    (prior.isTerminal = false → ¬(dd < now ∨ dm ≤ cm) →
      (dd ≤ now + sw ∨ dm ≤ cm + mm) →
      recomputeStatus sw mm dd dm cm prior now = .due_soon) ∧
    (prior.isTerminal = false → ¬(dd < now ∨ dm ≤ cm) →
      ¬(dd ≤ now + sw ∨ dm ≤ cm + mm) →
      recomputeStatus sw mm dd dm cm prior now
        = if prior = .in_progress then .in_progress else .scheduled) := by
  refine ⟨?_, ?_, ?_, ?_⟩
  · intro hterm
    simp [recomputeStatus, hterm]
  · intro hterm hover
    simp [recomputeStatus, hterm, hover]
  · intro hterm hover hsoon
    simp [recomputeStatus, hterm, hover, hsoon]
  · intro hterm hover hsoon
    simp [recomputeStatus, hterm, hover, hsoon]

/-- Witness for C1: a concrete evaluation of each case.  An item due at day 10
with mileage 100 of 200, seen at day 0 with a soon window of 14 days and a
margin of 50 miles, is due_soon from prior status scheduled; the same item
with prior status completed stays completed; at day 20 it is overdue. -/
theorem C1_status_derivation_witness :
    recomputeStatus 14 50 10 200 100 .scheduled 0 = .due_soon ∧
    recomputeStatus 14 50 10 200 100 .completed 0 = .completed ∧
    recomputeStatus 14 50 10 200 100 .scheduled 20 = .overdue := by
  refine ⟨?_, ?_, ?_⟩
  · exact (C1_status_derivation 14 50 10 200 100 .scheduled 0).2.2.1
      (by decide) (by decide) (by decide)
  · exact (C1_status_derivation 14 50 10 200 100 .completed 0).1 (by decide)
  · exact (C1_status_derivation 14 50 10 200 100 .scheduled 20).2.1
      (by decide) (by decide)

/-- Refreshing an item is idempotent: a second refresh with the same clock and
mileage values leaves the item unchanged. -/
theorem refreshStatus_idem (sw mm : Nat) (now : Int) (it : MaintenanceItem) :
    refreshStatus sw mm now (refreshStatus sw mm now it)
      = refreshStatus sw mm now it := by
  unfold refreshStatus
  simp [recomputeStatus_idem]

/-- C2: the bulk status update is idempotent.  For every store state, soon
window, mileage margin and clock value, running the bulk update a second time
with no elapsed time and no mileage change reports updated_count = 0: after
the first run persists the recomputed statuses, no item derives to a status
different from its stored one. -/
theorem C2_bulk_update_idempotent (sw mm : Nat) (now : Int)
    (store : List MaintenanceItem) :
    (update_maintenance_status_bulk sw mm now
      (update_maintenance_status_bulk sw mm now store).1).2 = 0 := by
  unfold update_maintenance_status_bulk
  simp only [List.countP_eq_zero, List.mem_map]
  rintro a ⟨x, _, rfl⟩
  have h := refreshStatus_idem sw mm now x
  simp [h]

/-! ## Query and aggregation layer: pagination (spec-modelled) -/

/-- The shape of a paginated listing result (spec section 4.2; also the
PaginatedMaintenanceItems Swagger model in maintenance_api.py): the item
slice, the pre-pagination total, the current page, the page size, and the
total number of pages. -/
structure PageResult (α : Type) where
  items : List α
  total : Nat
  page : Nat
  per_page : Nat
  pages : Nat
deriving DecidableEq

/-- Modelled from the spec: the pagination of
MaintenanceService.get_all_maintenance_items (section 4.2; the service file is
not among the sources).  Pages are 1-indexed; the slice is the window of
per_page items starting at offset (page - 1) * per_page of the filtered list;
total is the pre-pagination count and pages is ceil(total / per_page),
computed as (total + per_page - 1) / per_page in integer division. -/
def paginateItems {α : Type} (filtered : List α) (page per_page : Nat) :
    PageResult α :=
  { items := (filtered.drop ((page - 1) * per_page)).take per_page
    total := filtered.length
    page := page
    per_page := per_page
    pages := (filtered.length + per_page - 1) / per_page }

/-- The listing route get_maintenance_items in maintainance_route.py reads
page and per_page from the query string with request.args.get defaults 1 and
10 and hands them to the service; absent arguments mean the defaults. -/
def get_maintenance_items_route {α : Type} (filtered : List α)
    (pageArg perPageArg : Option Nat) : PageResult α :=
  paginateItems filtered (pageArg.getD 1) (perPageArg.getD 10)

/-- The ceiling count of pages covers the whole list: N items fit in
ceil(N / P) pages of size P. -/
theorem length_le_pages_mul (N P : Nat) (hP : 1 ≤ P) :
    N ≤ ((N + P - 1) / P) * P := by
  have hmod := Nat.div_add_mod (N + P - 1) P
  have hlt : (N + P - 1) % P < P := Nat.mod_lt _ (by omega)
  rw [Nat.mul_comm]
  generalize h : P * ((N + P - 1) / P) = m at hmod ⊢
  omega

/-- Concatenating the first k page slices of size P yields the first k * P
items of the list. -/
theorem flatten_page_slices {α : Type} (l : List α) (P : Nat) (k : Nat) :
    ((List.range k).map (fun i => (l.drop (i * P)).take P)).flatten
      = l.take (k * P) := by
  induction k with
  | zero => simp
  | succ n ih =>
    rw [List.range_succ, List.map_append, List.flatten_append]
    simp only [List.map_cons, List.map_nil, List.flatten_cons,
      List.flatten_nil, List.append_nil]
    rw [ih, Nat.succ_mul, List.take_add]

/-- C5: for every filtered list of N items and every page size P at least 1,
the paginated listing reports total = N and pages = ceil(N / P); a page
beyond the range yields an empty slice with the same metadata (the total and
pages fields do not depend on the requested page, by definition of
paginateItems); concatenating the slices of pages 1..pages in order
reproduces the filtered list exactly, hence with no duplicates and no
omissions; and the route defaults are page = 1 and per_page = 10. -/
theorem C5_pagination {α : Type} (items : List α) (page P : Nat)
    (hP : 1 ≤ P) :
    (paginateItems items page P).total = items.length ∧
    (paginateItems items page P).pages = items.length ⌈/⌉ P ∧
    (page > (paginateItems items page P).pages →
      (paginateItems items page P).items = []) ∧
    ((List.range (paginateItems items page P).pages).map
        (fun i => (paginateItems items (i + 1) P).items)).flatten = items ∧
    get_maintenance_items_route items none none = paginateItems items 1 10 := by
  refine ⟨rfl, ?_, ?_, ?_, rfl⟩
  · simp [paginateItems, Nat.ceilDiv_eq_add_pred_div]
  · intro hbeyond
    simp only [paginateItems] at hbeyond ⊢
    have hcov := length_le_pages_mul items.length P hP
    have hmul : ((items.length + P - 1) / P) * P ≤ (page - 1) * P :=
      Nat.mul_le_mul_right P (by omega)
    have hdrop : items.drop ((page - 1) * P) = [] :=
      List.drop_eq_nil_of_le (by omega)
    simp [hdrop]
  · simp only [paginateItems, Nat.add_sub_cancel]
    rw [flatten_page_slices]
    exact List.take_of_length_le (length_le_pages_mul items.length P hP)

/-- Witness for C5: the list [10, 20, 30] with page size 2 has total 3 and 2
pages, and requesting page 5 returns an empty slice. -/
theorem C5_pagination_witness :
    1 ≤ 2 ∧ (paginateItems ([10, 20, 30] : List Nat) 5 2).total = 3 ∧
      (paginateItems ([10, 20, 30] : List Nat) 5 2).items = [] := by
  refine ⟨by decide, ?_, ?_⟩
  · exact (C5_pagination ([10, 20, 30] : List Nat) 5 2 (by decide)).1
  · exact (C5_pagination ([10, 20, 30] : List Nat) 5 2 (by decide)).2.2.1
      (by decide)

/-! ## Validators (app/utils/validators.py, inlined in maintainance_route.py) -/

/-- validate_mileage from app/utils/validators.py: raises ValueError when a
mileage is negative, then when the due mileage is below the current mileage,
and returns True otherwise.  The raised ValueError is the error branch here,
carrying the exact message of the source. -/
def validate_mileage (current due : Int) : Except String Bool :=
  if current < 0 ∨ due < 0 then .error "Mileage values must be non-negative"
  else if due < current then
    .error "Due mileage must be greater than or equal to current mileage"
  else .ok true

/-- C6: mileage validation fails exactly when current_mileage is negative or
due_mileage is negative or due_mileage is below current_mileage, and succeeds
otherwise; negative values produce the non-negativity error, an inverted pair
produces the ordering error naming the due mileage; in particular
due_mileage = 100 with current_mileage = 150 fails with the mileage ordering
error. -/
theorem C6_mileage_validation (current due : Int) :
    ((validate_mileage current due).isOk ↔
      0 ≤ current ∧ 0 ≤ due ∧ current ≤ due) ∧
    (current < 0 ∨ due < 0 →
      validate_mileage current due
        = .error "Mileage values must be non-negative") ∧
    (0 ≤ current ∧ 0 ≤ due ∧ due < current →
      validate_mileage current due
        = .error "Due mileage must be greater than or equal to current mileage") ∧
    validate_mileage 150 100
      = .error "Due mileage must be greater than or equal to current mileage" := by
  refine ⟨?_, ?_, ?_, rfl⟩
  · unfold validate_mileage
    split_ifs with h1 h2 <;> simp [Except.isOk, Except.toBool] <;> omega
  · intro h
    simp [validate_mileage, h]
  · intro h
    unfold validate_mileage
    split_ifs with h1 h2
    · omega
    · rfl
    · omega

/-! ## Date validation

validate_date runs datetime.strptime(date_str, the format %Y-%m-%d).date().
The strptime format engine (CPython _strptime) compiles the format to the
regular expression with %Y four decimal digits, %m the ordered alternation
1[0-2] | 0[1-9] | [1-9], %d the ordered alternation
3[01] | [12]d | 0[1-9] | [1-9] (d a digit), matching from the start and then
rejecting any unconverted trailing characters; datetime.date further requires
year at least MINYEAR = 1 and day at most the length of the month.  The
embedding below follows that behaviour, restricted to ASCII digits; character
codes are used throughout (48 is the digit 0, 57 the digit 9, 45 the dash). -/

/-- The numeric value of an ASCII digit character. -/
def digitVal (c : Char) : Nat := c.toNat - 48

/-- ASCII decimal digit test (codes 48 to 57). -/
def isDig (c : Char) : Bool := decide (48 ≤ c.toNat ∧ c.toNat ≤ 57)

theorem isDig_iff (c : Char) : isDig c = true ↔ 48 ≤ c.toNat ∧ c.toNat ≤ 57 := by
  simp [isDig]

/-- strptime directive %Y: exactly four decimal digits. -/
def parseYear4 : List Char → Option (Nat × List Char)
  | c1 :: c2 :: c3 :: c4 :: rest =>
    if isDig c1 ∧ isDig c2 ∧ isDig c3 ∧ isDig c4 then
      some (digitVal c1 * 1000 + digitVal c2 * 100 + digitVal c3 * 10
        + digitVal c4, rest)
    else none
  | _ => none

/-- The literal dash separator of the format. -/
def parseDash : List Char → Option (List Char)
  | c :: rest => if c = '-' then some rest else none
  | [] => none

/-- strptime directive %m: the ordered alternation 1[0-2] | 0[1-9] | [1-9];
a two-character branch is preferred and the single-digit branch fires
otherwise (character codes: 48 is 0, 49 is 1, 50 is 2, 57 is 9). -/
def parseMonth : List Char → Option (Nat × List Char)
  | c1 :: c2 :: rest =>
    if c1.toNat = 49 ∧ 48 ≤ c2.toNat ∧ c2.toNat ≤ 50 then
      some (10 + digitVal c2, rest)
    else if c1.toNat = 48 ∧ 49 ≤ c2.toNat ∧ c2.toNat ≤ 57 then
      some (digitVal c2, rest)
    else if 49 ≤ c1.toNat ∧ c1.toNat ≤ 57 then
      some (digitVal c1, c2 :: rest)
    else none
  | [c1] =>
    if 49 ≤ c1.toNat ∧ c1.toNat ≤ 57 then some (digitVal c1, []) else none
  | [] => none

/-- strptime directive %d: the ordered alternation
3[01] | [12]d | 0[1-9] | [1-9] with d any digit (code 51 is the digit 3). -/
def parseDay : List Char → Option (Nat × List Char)
  | c1 :: c2 :: rest =>
    if c1.toNat = 51 ∧ 48 ≤ c2.toNat ∧ c2.toNat ≤ 49 then
      some (30 + digitVal c2, rest)
    else if (49 ≤ c1.toNat ∧ c1.toNat ≤ 50) ∧ (48 ≤ c2.toNat ∧ c2.toNat ≤ 57) then
      some (digitVal c1 * 10 + digitVal c2, rest)
    else if c1.toNat = 48 ∧ 49 ≤ c2.toNat ∧ c2.toNat ≤ 57 then
      some (digitVal c2, rest)
    else if 49 ≤ c1.toNat ∧ c1.toNat ≤ 57 then
      some (digitVal c1, c2 :: rest)
    else none
  | [c1] =>
    if 49 ≤ c1.toNat ∧ c1.toNat ≤ 57 then some (digitVal c1, []) else none
  | [] => none

/-- datetime.strptime(date_str, %Y-%m-%d): year, dash, month, dash, day, and
nothing may remain (strptime raises ValueError on unconverted data). -/
def strptimeYMD (cs : List Char) : Option (Nat × Nat × Nat) :=
  (parseYear4 cs).bind fun yr =>
    (parseDash yr.2).bind fun r2 =>
      (parseMonth r2).bind fun mr =>
        (parseDash mr.2).bind fun r4 =>
          (parseDay r4).bind fun dr =>
            if dr.2 = [] then some (yr.1, mr.1, dr.1) else none

/-- Gregorian leap year rule, as in the datetime module. -/
def isLeapYear (y : Nat) : Bool :=
  (y % 4 = 0 && y % 100 != 0) || y % 400 = 0

/-- Length of a month, as in the datetime module. -/
def daysInMonth (y m : Nat) : Nat :=
  if m = 2 then (if isLeapYear y then 29 else 28)
  else if m = 4 ∨ m = 6 ∨ m = 9 ∨ m = 11 then 30
  else 31

/-- validate_date from app/utils/validators.py: strptime with the %Y-%m-%d
format followed by the datetime.date constructor, whose range check requires
year at least 1 and day at most the month length (strptime already bounds the
month to 1..12 and the day to 1..31); every failure raises ValueError with the
fixed message, embedded as the error branch. -/
def validate_date (s : String) : Except String (Nat × Nat × Nat) :=
  match strptimeYMD s.toList with
  | some (y, m, d) =>
    if 1 ≤ y ∧ d ≤ daysInMonth y m then .ok (y, m, d)
    else .error "Invalid date format. Expected YYYY-MM-DD"
  | none => .error "Invalid date format. Expected YYYY-MM-DD"

/-! ## Date validation: specification-side predicates and parser lemmas -/

/-- The decimal value of a digit string. -/
def digitsVal (cs : List Char) : Nat :=
  cs.foldl (fun a c => a * 10 + digitVal c) 0

theorem digitsVal_one (c1 : Char) : digitsVal [c1] = c1.toNat - 48 := by
  simp [digitsVal, digitVal]

theorem digitsVal_two (c1 c2 : Char) :
    digitsVal [c1, c2] = (c1.toNat - 48) * 10 + (c2.toNat - 48) := by
  simp [digitsVal, digitVal]

theorem digitsVal_four (c1 c2 c3 c4 : Char) :
    digitsVal [c1, c2, c3, c4]
      = (c1.toNat - 48) * 1000 + (c2.toNat - 48) * 100 + (c3.toNat - 48) * 10
        + (c4.toNat - 48) := by
  simp [digitsVal, digitVal]
  omega

/-- A string in strict YYYY-MM-DD form denoting a calendar date: four year
digits, two month digits and two day digits separated by dashes, with the
month in 1..12, the day within the month and the year at least 1.  This is
the format named by the spec, written from its words for comparison with the
source behaviour. -/
def specYMDStrict (s : String) (y m d : Nat) : Prop :=
  ∃ yc mc dc : List Char,
    s.toList = yc ++ '-' :: (mc ++ '-' :: dc) ∧
    yc.length = 4 ∧ (∀ c ∈ yc, isDig c) ∧
    mc.length = 2 ∧ (∀ c ∈ mc, isDig c) ∧
    dc.length = 2 ∧ (∀ c ∈ dc, isDig c) ∧
    y = digitsVal yc ∧ m = digitsVal mc ∧ d = digitsVal dc ∧
    1 ≤ y ∧ 1 ≤ m ∧ m ≤ 12 ∧ 1 ≤ d ∧ d ≤ daysInMonth y m

/-- As specYMDStrict, but with the month and the day each allowed to be one
or two digits: zero padding is optional.  This is what the source accepts. -/
def specYMDLenient (s : String) (y m d : Nat) : Prop :=
  ∃ yc mc dc : List Char,
    s.toList = yc ++ '-' :: (mc ++ '-' :: dc) ∧
    yc.length = 4 ∧ (∀ c ∈ yc, isDig c) ∧
    (mc.length = 1 ∨ mc.length = 2) ∧ (∀ c ∈ mc, isDig c) ∧
    (dc.length = 1 ∨ dc.length = 2) ∧ (∀ c ∈ dc, isDig c) ∧
    y = digitsVal yc ∧ m = digitsVal mc ∧ d = digitsVal dc ∧
    1 ≤ y ∧ 1 ≤ m ∧ m ≤ 12 ∧ 1 ≤ d ∧ d ≤ daysInMonth y m

theorem daysInMonth_le_31 (y m : Nat) : daysInMonth y m ≤ 31 := by
  unfold daysInMonth
  split_ifs <;> omega

theorem parseYear4_sound {cs r : List Char} {y : Nat}
    (h : parseYear4 cs = some (y, r)) :
    ∃ yc, cs = yc ++ r ∧ yc.length = 4 ∧ (∀ c ∈ yc, isDig c)
      ∧ y = digitsVal yc := by
  match cs with
  | [] => simp [parseYear4] at h
  | [c1] => simp [parseYear4] at h
  | [c1, c2] => simp [parseYear4] at h
  | [c1, c2, c3] => simp [parseYear4] at h
  | c1 :: c2 :: c3 :: c4 :: rest =>
    simp only [parseYear4] at h
    split at h
    · next hd =>
      obtain ⟨h1, h2, h3, h4⟩ := hd
      rw [Option.some.injEq, Prod.mk.injEq] at h
      obtain ⟨hy, hr⟩ := h
      subst hr
      refine ⟨[c1, c2, c3, c4], rfl, rfl, ?_, ?_⟩
      · intro c hc
        simp only [List.mem_cons, List.not_mem_nil, or_false] at hc
        rcases hc with rfl | rfl | rfl | rfl <;> assumption
      · rw [← hy, digitsVal_four, digitVal, digitVal, digitVal, digitVal]
    · exact absurd h (by simp)

theorem parseYear4_complete (yc r : List Char) (hlen : yc.length = 4)
    (hdig : ∀ c ∈ yc, isDig c) :
    parseYear4 (yc ++ r) = some (digitsVal yc, r) := by
  match yc, hlen with
  | [c1, c2, c3, c4], _ =>
    have h1 : isDig c1 := hdig c1 (by simp)
    have h2 : isDig c2 := hdig c2 (by simp)
    have h3 : isDig c3 := hdig c3 (by simp)
    have h4 : isDig c4 := hdig c4 (by simp)
    simp only [List.cons_append, List.nil_append, parseYear4]
    rw [if_pos ⟨h1, h2, h3, h4⟩]
    rw [digitsVal_four, digitVal, digitVal, digitVal, digitVal]

theorem parseDash_sound {cs r : List Char} (h : parseDash cs = some r) :
    cs = '-' :: r := by
  match cs with
  | [] => simp [parseDash] at h
  | c :: rest =>
    simp only [parseDash] at h
    split at h
    · next hc =>
      rw [Option.some.injEq] at h
      subst h
      rw [hc]
    · exact absurd h (by simp)

theorem parseDash_complete (r : List Char) : parseDash ('-' :: r) = some r := by
  simp [parseDash]

theorem parseMonth_sound {cs r : List Char} {m : Nat}
    (h : parseMonth cs = some (m, r)) :
    ∃ mc, cs = mc ++ r ∧ (mc.length = 1 ∨ mc.length = 2) ∧
      (∀ c ∈ mc, isDig c) ∧ m = digitsVal mc ∧ 1 ≤ m ∧ m ≤ 12 := by
  match cs with
  | [] => simp [parseMonth] at h
  | [c1] =>
    simp only [parseMonth] at h
    split at h
    · next hc =>
      rw [Option.some.injEq, Prod.mk.injEq] at h
      obtain ⟨hm, hr⟩ := h
      subst hr
      refine ⟨[c1], by simp, Or.inl rfl, ?_, ?_, ?_, ?_⟩
      · intro c hc2
        simp only [List.mem_singleton] at hc2
        subst hc2
        rw [isDig_iff]
        omega
      · rw [← hm, digitsVal_one]
        simp only [digitVal]
      · rw [← hm]
        simp only [digitVal]
        omega
      · rw [← hm]
        simp only [digitVal]
        omega
    · exact absurd h (by simp)
  | c1 :: c2 :: rest =>
    simp only [parseMonth] at h
    split at h
    · next hc =>
      rw [Option.some.injEq, Prod.mk.injEq] at h
      obtain ⟨hm, hr⟩ := h
      subst hr
      refine ⟨[c1, c2], rfl, Or.inr rfl, ?_, ?_, ?_, ?_⟩
      · intro c hc2
        simp only [List.mem_cons, List.not_mem_nil, or_false] at hc2
        rcases hc2 with rfl | rfl <;> (rw [isDig_iff]; omega)
      · rw [← hm, digitsVal_two]
        simp only [digitVal]
        omega
      · rw [← hm]; simp only [digitVal]; omega
      · rw [← hm]; simp only [digitVal]; omega
    · split at h
      · next hc =>
        rw [Option.some.injEq, Prod.mk.injEq] at h
        obtain ⟨hm, hr⟩ := h
        subst hr
        refine ⟨[c1, c2], rfl, Or.inr rfl, ?_, ?_, ?_, ?_⟩
        · intro c hc2
          simp only [List.mem_cons, List.not_mem_nil, or_false] at hc2
          rcases hc2 with rfl | rfl <;> (rw [isDig_iff]; omega)
        · rw [← hm, digitsVal_two]
          simp only [digitVal]
          omega
        · rw [← hm]; simp only [digitVal]; omega
        · rw [← hm]; simp only [digitVal]; omega
      · split at h
        · next hc =>
          rw [Option.some.injEq, Prod.mk.injEq] at h
          obtain ⟨hm, hr⟩ := h
          subst hr
          refine ⟨[c1], rfl, Or.inl rfl, ?_, ?_, ?_, ?_⟩
          · intro c hc2
            simp only [List.mem_singleton] at hc2
            subst hc2
            rw [isDig_iff]
            omega
          · rw [← hm, digitsVal_one]
            simp only [digitVal]
          · rw [← hm]; simp only [digitVal]; omega
          · rw [← hm]; simp only [digitVal]; omega
        · exact absurd h (by simp)

theorem parseMonth_complete (mc r : List Char)
    (hlen : mc.length = 1 ∨ mc.length = 2) (hdig : ∀ c ∈ mc, isDig c)
    (hlo : 1 ≤ digitsVal mc) (hhi : digitsVal mc ≤ 12)
    (hr : ∀ c rs, r = c :: rs → isDig c = false) :
    parseMonth (mc ++ r) = some (digitsVal mc, r) := by
  rcases hlen with hl | hl
  · obtain ⟨c1, rfl⟩ : ∃ c1, mc = [c1] := by
      match mc, hl with
      | [c1], _ => exact ⟨c1, rfl⟩
    have hd1 := hdig c1 (by simp)
    rw [isDig_iff] at hd1
    rw [digitsVal_one] at hlo hhi ⊢
    cases r with
    | nil =>
      rw [List.append_nil]
      simp only [parseMonth]
      rw [if_pos (by omega), Option.some.injEq, Prod.mk.injEq]
      exact ⟨by simp only [digitVal], rfl⟩
    | cons c rs =>
      have hndig := hr c rs rfl
      have hnd : ¬(48 ≤ c.toNat ∧ c.toNat ≤ 57) := by
        rw [← isDig_iff, hndig]
        simp
      simp only [List.cons_append, List.nil_append, parseMonth]
      rw [if_neg (by omega), if_neg (by omega), if_pos (by omega),
        Option.some.injEq, Prod.mk.injEq]
      exact ⟨by simp only [digitVal], rfl⟩
  · obtain ⟨c1, c2, rfl⟩ : ∃ c1 c2, mc = [c1, c2] := by
      match mc, hl with
      | [c1, c2], _ => exact ⟨c1, c2, rfl⟩
    have hd1 := hdig c1 (by simp)
    have hd2 := hdig c2 (by simp)
    rw [isDig_iff] at hd1 hd2
    rw [digitsVal_two] at hlo hhi ⊢
    simp only [List.cons_append, List.nil_append, parseMonth]
    have hc1 : c1.toNat = 48 ∨ c1.toNat = 49 := by omega
    rcases hc1 with h48 | h49
    · rw [if_neg (by omega), if_pos (by omega), Option.some.injEq,
        Prod.mk.injEq]
      exact ⟨by simp only [digitVal]; omega, rfl⟩
    · rw [if_pos (by omega), Option.some.injEq, Prod.mk.injEq]
      exact ⟨by simp only [digitVal]; omega, rfl⟩

theorem parseDay_sound {cs r : List Char} {d : Nat}
    (h : parseDay cs = some (d, r)) :
    ∃ dc, cs = dc ++ r ∧ (dc.length = 1 ∨ dc.length = 2) ∧
      (∀ c ∈ dc, isDig c) ∧ d = digitsVal dc ∧ 1 ≤ d ∧ d ≤ 31 := by
  match cs with
  | [] => simp [parseDay] at h
  | [c1] =>
    simp only [parseDay] at h
    split at h
    · next hc =>
      rw [Option.some.injEq, Prod.mk.injEq] at h
      obtain ⟨hd, hr⟩ := h
      subst hr
      refine ⟨[c1], by simp, Or.inl rfl, ?_, ?_, ?_, ?_⟩
      · intro c hc2
        simp only [List.mem_singleton] at hc2
        subst hc2
        rw [isDig_iff]
        omega
      · rw [← hd, digitsVal_one]
        simp only [digitVal]
      · rw [← hd]; simp only [digitVal]; omega
      · rw [← hd]; simp only [digitVal]; omega
    · exact absurd h (by simp)
  | c1 :: c2 :: rest =>
    simp only [parseDay] at h
    split at h
    · next hc =>
      rw [Option.some.injEq, Prod.mk.injEq] at h
      obtain ⟨hd, hr⟩ := h
      subst hr
      refine ⟨[c1, c2], rfl, Or.inr rfl, ?_, ?_, ?_, ?_⟩
      · intro c hc2
        simp only [List.mem_cons, List.not_mem_nil, or_false] at hc2
        rcases hc2 with rfl | rfl <;> (rw [isDig_iff]; omega)
      · rw [← hd, digitsVal_two]
        simp only [digitVal]
        omega
      · rw [← hd]; simp only [digitVal]; omega
      · rw [← hd]; simp only [digitVal]; omega
    · split at h
      · next hc =>
        rw [Option.some.injEq, Prod.mk.injEq] at h
        obtain ⟨hd, hr⟩ := h
        subst hr
        refine ⟨[c1, c2], rfl, Or.inr rfl, ?_, ?_, ?_, ?_⟩
        · intro c hc2
          simp only [List.mem_cons, List.not_mem_nil, or_false] at hc2
          rcases hc2 with rfl | rfl <;> (rw [isDig_iff]; omega)
        · rw [← hd, digitsVal_two]
          simp only [digitVal]
        · rw [← hd]; simp only [digitVal]; omega
        · rw [← hd]; simp only [digitVal]; omega
      · split at h
        · next hc =>
          rw [Option.some.injEq, Prod.mk.injEq] at h
          obtain ⟨hd, hr⟩ := h
          subst hr
          refine ⟨[c1, c2], rfl, Or.inr rfl, ?_, ?_, ?_, ?_⟩
          · intro c hc2
            simp only [List.mem_cons, List.not_mem_nil, or_false] at hc2
            rcases hc2 with rfl | rfl <;> (rw [isDig_iff]; omega)
          · rw [← hd, digitsVal_two]
            simp only [digitVal]
            omega
          · rw [← hd]; simp only [digitVal]; omega
          · rw [← hd]; simp only [digitVal]; omega
        · split at h
          · next hc =>
            rw [Option.some.injEq, Prod.mk.injEq] at h
            obtain ⟨hd, hr⟩ := h
            subst hr
            refine ⟨[c1], rfl, Or.inl rfl, ?_, ?_, ?_, ?_⟩
            · intro c hc2
              simp only [List.mem_singleton] at hc2
              subst hc2
              rw [isDig_iff]
              omega
            · rw [← hd, digitsVal_one]
              simp only [digitVal]
            · rw [← hd]; simp only [digitVal]; omega
            · rw [← hd]; simp only [digitVal]; omega
          · exact absurd h (by simp)

theorem parseDay_complete (dc : List Char)
    (hlen : dc.length = 1 ∨ dc.length = 2) (hdig : ∀ c ∈ dc, isDig c)
    (hlo : 1 ≤ digitsVal dc) (hhi : digitsVal dc ≤ 31) :
    parseDay dc = some (digitsVal dc, []) := by
  rcases hlen with hl | hl
  · obtain ⟨c1, rfl⟩ : ∃ c1, dc = [c1] := by
      match dc, hl with
      | [c1], _ => exact ⟨c1, rfl⟩
    have hd1 := hdig c1 (by simp)
    rw [isDig_iff] at hd1
    rw [digitsVal_one] at hlo hhi ⊢
    simp only [parseDay]
    rw [if_pos (by omega), Option.some.injEq, Prod.mk.injEq]
    exact ⟨by simp only [digitVal], rfl⟩
  · obtain ⟨c1, c2, rfl⟩ : ∃ c1 c2, dc = [c1, c2] := by
      match dc, hl with
      | [c1, c2], _ => exact ⟨c1, c2, rfl⟩
    have hd1 := hdig c1 (by simp)
    have hd2 := hdig c2 (by simp)
    rw [isDig_iff] at hd1 hd2
    rw [digitsVal_two] at hlo hhi ⊢
    simp only [parseDay]
    have hc1 : c1.toNat = 48 ∨ c1.toNat = 49 ∨ c1.toNat = 50 ∨ c1.toNat = 51 := by
      omega
    rcases hc1 with h | h | h | h
    · rw [if_neg (by omega), if_neg (by omega), if_pos (by omega),
        Option.some.injEq, Prod.mk.injEq]
      exact ⟨by simp only [digitVal]; omega, rfl⟩
    · rw [if_neg (by omega), if_pos (by omega), Option.some.injEq,
        Prod.mk.injEq]
      exact ⟨by simp only [digitVal], rfl⟩
    · rw [if_neg (by omega), if_pos (by omega), Option.some.injEq,
        Prod.mk.injEq]
      exact ⟨by simp only [digitVal], rfl⟩
    · rw [if_pos (by omega), Option.some.injEq, Prod.mk.injEq]
      exact ⟨by simp only [digitVal]; omega, rfl⟩

theorem strptimeYMD_sound {cs : List Char} {y m d : Nat}
    (h : strptimeYMD cs = some (y, m, d)) :
    ∃ yc mc dc, cs = yc ++ '-' :: (mc ++ '-' :: dc) ∧
      yc.length = 4 ∧ (∀ c ∈ yc, isDig c) ∧
      (mc.length = 1 ∨ mc.length = 2) ∧ (∀ c ∈ mc, isDig c) ∧
      (dc.length = 1 ∨ dc.length = 2) ∧ (∀ c ∈ dc, isDig c) ∧
      y = digitsVal yc ∧ m = digitsVal mc ∧ d = digitsVal dc ∧
      1 ≤ m ∧ m ≤ 12 ∧ 1 ≤ d ∧ d ≤ 31 := by
  unfold strptimeYMD at h
  cases hY : parseYear4 cs with
  | none => rw [hY] at h; simp at h
  | some yr =>
    obtain ⟨y0, r1⟩ := yr
    rw [hY, Option.some_bind] at h
    cases hS1 : parseDash r1 with
    | none => rw [hS1] at h; simp at h
    | some r2 =>
      rw [hS1, Option.some_bind] at h
      cases hM : parseMonth r2 with
      | none => rw [hM] at h; simp at h
      | some mr =>
        obtain ⟨m0, r3⟩ := mr
        rw [hM, Option.some_bind] at h
        cases hS2 : parseDash r3 with
        | none => rw [hS2] at h; simp at h
        | some r4 =>
          rw [hS2, Option.some_bind] at h
          cases hD : parseDay r4 with
          | none => rw [hD] at h; simp at h
          | some dr =>
            obtain ⟨d0, r5⟩ := dr
            rw [hD, Option.some_bind] at h
            split at h
            · next hnil =>
              rw [Option.some.injEq, Prod.mk.injEq, Prod.mk.injEq] at h
              obtain ⟨hy, hm, hd⟩ := h
              simp only at hnil
              subst hnil hy hm hd
              obtain ⟨yc, hys, hy4, hyd, hyv⟩ := parseYear4_sound hY
              obtain ⟨mc, hms, hml, hmd, hmv, hm1, hm12⟩ := parseMonth_sound hM
              obtain ⟨dc, hds, hdl, hdd, hdv, hd1, hd31⟩ := parseDay_sound hD
              have hr1 : r1 = '-' :: r2 := parseDash_sound hS1
              have hr3 : r3 = '-' :: r4 := parseDash_sound hS2
              refine ⟨yc, mc, dc, ?_, hy4, hyd, hml, hmd, hdl, hdd, hyv, hmv,
                hdv, hm1, hm12, hd1, hd31⟩
              rw [hys, hr1, hms, hr3, hds, List.append_nil]
            · exact absurd h (by simp)

theorem strptimeYMD_complete (yc mc dc : List Char)
    (hy4 : yc.length = 4) (hyd : ∀ c ∈ yc, isDig c)
    (hml : mc.length = 1 ∨ mc.length = 2) (hmd : ∀ c ∈ mc, isDig c)
    (hdl : dc.length = 1 ∨ dc.length = 2) (hdd : ∀ c ∈ dc, isDig c)
    (hm1 : 1 ≤ digitsVal mc) (hm12 : digitsVal mc ≤ 12)
    (hd1 : 1 ≤ digitsVal dc) (hd31 : digitsVal dc ≤ 31) :
    strptimeYMD (yc ++ '-' :: (mc ++ '-' :: dc))
      = some (digitsVal yc, digitsVal mc, digitsVal dc) := by
  unfold strptimeYMD
  rw [parseYear4_complete yc ('-' :: (mc ++ '-' :: dc)) hy4 hyd]
  simp only [Option.some_bind]
  rw [parseDash_complete]
  simp only [Option.some_bind]
  rw [parseMonth_complete mc ('-' :: dc) hml hmd hm1 hm12
    (by intro c rs hcr; injection hcr with h1 h2; subst h1; decide)]
  simp only [Option.some_bind]
  rw [parseDash_complete]
  simp only [Option.some_bind]
  rw [parseDay_complete dc hdl hdd hd1 hd31]
  simp

/-- The success condition of validate_date: strptime succeeds and the
datetime.date range check passes. -/
theorem validate_date_eq_ok_iff (s : String) (y m d : Nat) :
    validate_date s = .ok (y, m, d) ↔
      strptimeYMD s.toList = some (y, m, d) ∧ 1 ≤ y ∧ d ≤ daysInMonth y m := by
  unfold validate_date
  cases hst : strptimeYMD s.toList with
  | none => simp
  | some t =>
    obtain ⟨y0, m0, d0⟩ := t
    dsimp only
    split_ifs with hc
    · constructor
      · intro h
        rw [Except.ok.injEq, Prod.mk.injEq, Prod.mk.injEq] at h
        obtain ⟨rfl, rfl, rfl⟩ := h
        exact ⟨rfl, hc.1, hc.2⟩
      · rintro ⟨hsome, h1, h2⟩
        rw [Option.some.injEq, Prod.mk.injEq, Prod.mk.injEq] at hsome
        obtain ⟨rfl, rfl, rfl⟩ := hsome
        rfl
    · constructor
      · intro h
        exact absurd h (by simp)
      · rintro ⟨hsome, h1, h2⟩
        rw [Option.some.injEq, Prod.mk.injEq, Prod.mk.injEq] at hsome
        obtain ⟨rfl, rfl, rfl⟩ := hsome
        exact absurd ⟨h1, h2⟩ hc

/-- C7 counterexample: the claim states that date validation succeeds exactly
on strings that parse as a calendar date in YYYY-MM-DD format, yet the string
2024-1-5, which is not in YYYY-MM-DD format (its month and day are single
digits), is accepted by validate_date: strptime does not require zero
padding.  The second conjunct shows no reading of 2024-1-5 as a strict
YYYY-MM-DD date exists, because a strict form has ten characters and this
string has eight. -/
theorem C7_counterexample :
    validate_date "2024-1-5" = .ok (2024, 1, 5) ∧
    ¬ (∃ y m d, specYMDStrict "2024-1-5" y m d) := by
  constructor
  · rfl
  · intro h
    obtain ⟨y, m, d, hspec⟩ := h
    unfold specYMDStrict at hspec
    obtain ⟨yc, mc, dc, heq, hy4, -, hm2, -, hd2, -⟩ := hspec
    have hlen : (yc ++ '-' :: (mc ++ '-' :: dc)).length = 8 := by
      rw [← heq]
      rfl
    simp only [List.length_append, List.length_cons] at hlen
    omega

/-- C7 amended: date validation succeeds exactly on strings of the shape
year-month-day where the year is exactly four digits, the month and the day
are each one or two digits (zero padding is optional), the month is 1..12,
the day is within the length of the month and the year is at least 1,
returning the parsed date; every other string fails with the ValidationError
message; in particular 2024-13-40 fails with the date format error.  This
differs from the claim only in also accepting unpadded single-digit months
and days, which strptime with the %Y-%m-%d format allows. -/
theorem C7_date_validation_amended :
    (∀ (s : String) (y m d : Nat),
      validate_date s = .ok (y, m, d) ↔ specYMDLenient s y m d) ∧
    validate_date "2024-13-40"
      = .error "Invalid date format. Expected YYYY-MM-DD" := by
  constructor
  · intro s y m d
    rw [validate_date_eq_ok_iff]
    unfold specYMDLenient
    constructor
    · rintro ⟨hst, h1y, hdm⟩
      obtain ⟨yc, mc, dc, hcs, hy4, hyd, hml, hmd, hdl, hdd, hyv, hmv, hdv,
        hm1, hm12, hd1, hd31⟩ := strptimeYMD_sound hst
      exact ⟨yc, mc, dc, hcs, hy4, hyd, hml, hmd, hdl, hdd, hyv, hmv, hdv,
        h1y, hm1, hm12, hd1, hdm⟩
    · rintro ⟨yc, mc, dc, hcs, hy4, hyd, hml, hmd, hdl, hdd, hyv, hmv, hdv,
        h1y, hm1, hm12, hd1, hdm⟩
      subst hyv
      subst hmv
      subst hdv
      refine ⟨?_, h1y, hdm⟩
      rw [hcs]
      exact strptimeYMD_complete yc mc dc hy4 hyd hml hmd hdl hdd hm1 hm12
        hd1 (le_trans hdm (daysInMonth_le_31 _ _))
  · rfl

/-! ## Authentication middleware (app/utils/auth.py) -/

/-- The decoded JWT payload as require_role reads it: the python dict is
modelled by its truthiness (an empty payload dict is falsy, and require_role
treats a falsy g.user as not authenticated) together with the
realm_access.roles list (the .get calls default absent keys to the empty
list). -/
structure Payload where
  truthy : Bool
  realmRoles : List String
deriving DecidableEq

/-- The configuration read by the decorators (config.py): AUTH_DISABLED and
OIDC_ISSUER, the latter none when the environment variable is unset. -/
structure AuthConfig where
  authDisabled : Bool
  oidcIssuer : Option String
deriving DecidableEq

/-- The request data the middleware reads: the HTTP method and the
Authorization header, none when the header is absent. -/
structure HttpRequest where
  method : String
  authHeader : Option String
deriving DecidableEq

/-- The outcome of a decorated view call: the HTTP status, the response
message, and whether the wrapped view, and so the service call inside it,
actually ran. -/
structure HttpResponse where
  status : Nat
  message : String
  serviceCalled : Bool
deriving DecidableEq

/-- flask_restx abort with status 401: the view does not run. -/
def abort401 (msg : String) : HttpResponse := ⟨401, msg, false⟩

/-- flask_restx abort with status 403: the view does not run. -/
def abort403 (msg : String) : HttpResponse := ⟨403, msg, false⟩

/-- python str.split() with no separator: split on runs of whitespace and
drop the empty pieces.  The accumulator carries the current word reversed. -/
def pySplitAux : List Char → List Char → List (List Char)
  | [], acc => if acc = [] then [] else [acc.reverse]
  | c :: cs, acc =>
    if c.isWhitespace then
      if acc = [] then pySplitAux cs [] else acc.reverse :: pySplitAux cs []
    else pySplitAux cs (c :: acc)

/-- auth_header.split() in require_auth. -/
def pySplit (s : String) : List (List Char) := pySplitAux s.toList []

/-- require_auth from app/utils/auth.py.  The decode argument models
jwt.decode(token, options with verify_signature set to False): it depends
only on the token text, never on any key material, and is none when the
token does not even decode as a JWT (the InvalidTokenError arm; with
signature verification disabled no expiry check runs either).  The wrapped
view f receives the value of g.user, none when the decorator never set it.
The branches follow the source in order: OPTIONS passes through, AUTH_DISABLED
passes through, a missing or empty header means 401, a whitespace-only header
makes parts[0] raise IndexError (an uncaught 500), then the Bearer prefix and
part-count checks, and finally the token is decoded only when OIDC_ISSUER is
configured; without an issuer the view runs with g.user unset after only a
logged warning. -/
def require_auth (decode : List Char → Option Payload) (cfg : AuthConfig)
    (req : HttpRequest) (f : Option Payload → HttpResponse) : HttpResponse :=
  if req.method = "OPTIONS" then f none
  else if cfg.authDisabled = true then f none
  else
    match req.authHeader with
    | none => abort401 "Authorization header is expected"
    | some h =>
      if h = "" then abort401 "Authorization header is expected"
      else
        match pySplit h with
        | [] => ⟨500, "IndexError", false⟩
        | p0 :: rest =>
          if p0.map Char.toLower ≠ "bearer".toList then
            abort401 "Authorization header must start with Bearer"
          else
            match rest with
            | [] => abort401 "Token not found"
            | [token] =>
              match cfg.oidcIssuer with
              | some _ =>
                match decode token with
                | some payload => f (some payload)
                | none => abort401 "Invalid token"
              | none => f none
            | _ :: _ :: _ =>
              abort401 "Authorization header must be Bearer token"

/-- require_role from app/utils/auth.py: when auth is not disabled, reject
with 401 when g.user was never set or is falsy, reject with 403 when the
realm_access.roles claim lacks the required role, and otherwise run the
wrapped view. -/
def require_role (role : String) (cfg : AuthConfig)
    (f : Option Payload → HttpResponse) : Option Payload → HttpResponse :=
  fun user =>
    if cfg.authDisabled = true then f user
    else
      match user with
      | none => abort401 "User not authenticated"
      | some u =>
        if u.truthy = false then abort401 "User not authenticated"
        else if role ∈ u.realmRoles then f user
        else abort403 ("Insufficient permissions: " ++ role ++ " role required")

/-- The view body shared by both bulk endpoints: call
MaintenanceService.update_maintenance_status_bulk and answer 200 with the
updated count (the count comes from the store, so it is a parameter). -/
def bulk_view (updatedCount : Nat) : Option Payload → HttpResponse :=
  fun _ =>
    ⟨200, "Updated " ++ toString updatedCount ++ " maintenance items", true⟩

/-- update_statuses_bulk from maintainance_route.py: the blueprint route for
POST /maintenance/status/update-bulk, decorated with require_auth and
require_role fleet-admin (require_auth runs first, then the role check). -/
def update_statuses_bulk (decode : List Char → Option Payload)
    (cfg : AuthConfig) (req : HttpRequest) (updatedCount : Nat) :
    HttpResponse :=
  require_auth decode cfg req
    (require_role "fleet-admin" cfg (bulk_view updatedCount))

/-- BulkStatusUpdate.post from maintenance_api.py: the flask_restx resource
for POST /maintenance/status/update-bulk.  It carries no require_auth and no
require_role decorator, so the request is never consulted and the service
call always runs. -/
def BulkStatusUpdate_post (req : HttpRequest) (updatedCount : Nat) :
    HttpResponse :=
  bulk_view updatedCount none

/-- A probe view recording that the wrapped handler ran. -/
def probe_view : Option Payload → HttpResponse := fun _ => ⟨200, "ok", true⟩

/-- Signature verification against the published key set of the issuer,
modelled as a predicate on the token: get_public_keys in auth.py fetches that
key set, but require_auth never consults it.  This verifier rejects every
signature and is used to exhibit a token whose signature does not verify yet
which require_auth accepts. -/
def rejectAllSignatures : List Char → Bool := fun _ => false

/-! ## Theorems about the authentication middleware -/

/-- C9: for every request whose method is OPTIONS, require_auth invokes the
wrapped view directly with g.user unset, performing no authentication check:
the outcome is the same whatever the configuration, the Authorization header
and the decode function, shown by quantifying over two arbitrary choices of
each. -/
theorem C9_options_bypass (decode decode2 : List Char → Option Payload)
    (cfg cfg2 : AuthConfig) (req req2 : HttpRequest)
    (f : Option Payload → HttpResponse)
    (hm : req.method = "OPTIONS") (hm2 : req2.method = "OPTIONS") :
    require_auth decode cfg req f = f none ∧
    require_auth decode cfg req f = require_auth decode2 cfg2 req2 f := by
  unfold require_auth
  rw [if_pos hm, if_pos hm2]
  exact ⟨rfl, rfl⟩

/-- Witness for C9: an OPTIONS request with no header and auth enabled, and
an OPTIONS request with a header and auth disabled, both run the view with
g.user unset. -/
theorem C9_options_bypass_witness :
    require_auth (fun _ => none) ⟨false, some "http://keycloak"⟩
        ⟨"OPTIONS", none⟩ probe_view = probe_view none ∧
    require_auth (fun _ => none) ⟨false, some "http://keycloak"⟩
        ⟨"OPTIONS", none⟩ probe_view
      = require_auth (fun _ => some ⟨true, []⟩) ⟨true, none⟩
          ⟨"OPTIONS", some "Bearer x"⟩ probe_view :=
  C9_options_bypass (fun _ => none) (fun _ => some ⟨true, []⟩)
    ⟨false, some "http://keycloak"⟩ ⟨true, none⟩
    ⟨"OPTIONS", none⟩ ⟨"OPTIONS", some "Bearer x"⟩ probe_view rfl rfl

/-- C10: with authentication enabled but no OIDC_ISSUER configured,
require_auth accepts every request carrying a well-formed Bearer header: the
wrapped view runs with g.user unset, the token is never decoded (the outcome
does not depend on the decode function), and consequently a require_role
protected view under it answers 401 User not authenticated, whatever the
token contains. -/
theorem C10_no_issuer_behaviour (decode decode2 : List Char → Option Payload)
    (cfg : AuthConfig) (req : HttpRequest)
    (f : Option Payload → HttpResponse) (role : String) (h : String)
    (b t : List Char)
    (hm : req.method ≠ "OPTIONS") (hdis : cfg.authDisabled = false)
    (hiss : cfg.oidcIssuer = none) (hh : req.authHeader = some h)
    (hne : h ≠ "") (hsplit : pySplit h = [b, t])
    (hb : b.map Char.toLower = "bearer".toList) :
    require_auth decode cfg req f = f none ∧
    require_auth decode cfg req f = require_auth decode2 cfg req f ∧
    require_auth decode cfg req (require_role role cfg f)
      = abort401 "User not authenticated" := by
  have hrun : ∀ g : Option Payload → HttpResponse,
      require_auth decode cfg req g = g none := by
    intro g
    unfold require_auth
    rw [if_neg hm, hdis]
    simp only [Bool.false_eq_true, if_false, hh, hne, if_false, hsplit, hb,
      hiss, ne_eq, not_true_eq_false, if_false]
  have hrun2 : require_auth decode2 cfg req f = f none := by
    unfold require_auth
    rw [if_neg hm, hdis]
    simp only [Bool.false_eq_true, if_false, hh, hne, if_false, hsplit, hb,
      hiss, ne_eq, not_true_eq_false, if_false]
  refine ⟨hrun f, ?_, ?_⟩
  · rw [hrun f, hrun2]
  · rw [hrun (require_role role cfg f)]
    unfold require_role
    rw [hdis]
    simp

/-- Witness for C10: a POST with the header Bearer eyJhbGciOiJSUzI1NiJ9, auth
enabled and no issuer configured, runs the view with g.user unset, and the
same request against a fleet-admin gated view yields 401 User not
authenticated, even though the decode function would produce a payload
carrying the fleet-admin role. -/
theorem C10_no_issuer_behaviour_witness :
    require_auth (fun _ => some ⟨true, ["fleet-admin"]⟩) ⟨false, none⟩
        ⟨"POST", some "Bearer eyJhbGciOiJSUzI1NiJ9"⟩ probe_view
      = probe_view none ∧
    require_auth (fun _ => some ⟨true, ["fleet-admin"]⟩) ⟨false, none⟩
        ⟨"POST", some "Bearer eyJhbGciOiJSUzI1NiJ9"⟩
        (require_role "fleet-admin" ⟨false, none⟩ probe_view)
      = abort401 "User not authenticated" := by
  have h := C10_no_issuer_behaviour (fun _ => some ⟨true, ["fleet-admin"]⟩)
    (fun _ => none) ⟨false, none⟩
    ⟨"POST", some "Bearer eyJhbGciOiJSUzI1NiJ9"⟩ probe_view "fleet-admin"
    "Bearer eyJhbGciOiJSUzI1NiJ9" "Bearer".toList
    "eyJhbGciOiJSUzI1NiJ9".toList (by decide) rfl rfl rfl (by decide)
    (by decide) (by decide)
  exact ⟨h.1, h.2.2⟩

/-- C4 counterexample: the claim states a token is accepted only if validated
against the published key set of the configured issuer, and that a token
whose signature does not verify is rejected with 401.  Here is a request
whose token signature verifies against no key at all, sent with an issuer
configured and auth enabled, and require_auth accepts it and runs the view:
jwt.decode is called with signature verification disabled, and
get_public_keys is never consulted. -/
theorem C4_counterexample :
    rejectAllSignatures "sig-broken-token".toList = false ∧
    require_auth (fun _ => some ⟨true, []⟩) ⟨false, some "http://keycloak"⟩
        ⟨"GET", some "Bearer sig-broken-token"⟩ probe_view
      = ⟨200, "ok", true⟩ := ⟨rfl, rfl⟩

/-- With an issuer configured, authentication enabled and a well-formed
bearer header, require_auth reduces to the structural decode outcome of the
token: a decoded payload reaches the view as g.user, a failed decode is 401.
Shared helper behind the theorems about require_auth with an issuer. -/
theorem require_auth_issuer_decode
    (decode : List Char → Option Payload) (cfg : AuthConfig)
    (req : HttpRequest) (f : Option Payload → HttpResponse)
    (iss h : String) (b t : List Char)
    (hm : req.method ≠ "OPTIONS") (hdis : cfg.authDisabled = false)
    (hiss : cfg.oidcIssuer = some iss) (hh : req.authHeader = some h)
    (hne : h ≠ "") (hsplit : pySplit h = [b, t])
    (hb : b.map Char.toLower = "bearer".toList) :
    (∀ p, decode t = some p → require_auth decode cfg req f = f (some p)) ∧
    (decode t = none →
      require_auth decode cfg req f = abort401 "Invalid token") := by
  constructor
  · intro p hdec
    unfold require_auth
    rw [if_neg hm, hdis]
    simp only [Bool.false_eq_true, if_false, hh, hne, if_false, hsplit, hb,
      hiss, hdec, ne_eq, not_true_eq_false, if_false]
  · intro hdec
    unfold require_auth
    rw [if_neg hm, hdis]
    simp only [Bool.false_eq_true, if_false, hh, hne, if_false, hsplit, hb,
      hiss, hdec, ne_eq, not_true_eq_false, if_false]

/-- C4 amended: with an issuer configured and authentication enabled,
require_auth accepts exactly the requests whose bearer token structurally
decodes as a JWT, storing the decoded claims in g.user, and rejects with 401
a token that does not decode; no signature verification against the issuer
key set takes place — the decision is a function of the structural decode
outcome alone, stated here for every decode function at once, and the key
set fetched by get_public_keys plays no part. -/
theorem C4_auth_no_signature_verification
    (decode : List Char → Option Payload) (cfg : AuthConfig)
    (req : HttpRequest) (f : Option Payload → HttpResponse)
    (iss h : String) (b t : List Char)
    (hm : req.method ≠ "OPTIONS") (hdis : cfg.authDisabled = false)
    (hiss : cfg.oidcIssuer = some iss) (hh : req.authHeader = some h)
    (hne : h ≠ "") (hsplit : pySplit h = [b, t])
    (hb : b.map Char.toLower = "bearer".toList) :
    (∀ p, decode t = some p → require_auth decode cfg req f = f (some p)) ∧
    (decode t = none →
      require_auth decode cfg req f = abort401 "Invalid token") :=
  require_auth_issuer_decode decode cfg req f iss h b t hm hdis hiss hh hne
    hsplit hb

/-- Witness for C4 amended: with issuer http://keycloak configured, a request
whose token decodes to a payload with no roles is accepted and the view runs
with that payload as g.user; with a decode function that fails, the same
request is answered 401 Invalid token. -/
theorem C4_auth_no_signature_verification_witness :
    require_auth (fun _ => some ⟨true, []⟩) ⟨false, some "http://keycloak"⟩
        ⟨"GET", some "Bearer tok"⟩ probe_view
      = probe_view (some ⟨true, []⟩) ∧
    require_auth (fun _ => none) ⟨false, some "http://keycloak"⟩
        ⟨"GET", some "Bearer tok"⟩ probe_view
      = abort401 "Invalid token" := by
  constructor
  · exact (C4_auth_no_signature_verification (fun _ => some ⟨true, []⟩)
      ⟨false, some "http://keycloak"⟩ ⟨"GET", some "Bearer tok"⟩ probe_view
      "http://keycloak" "Bearer tok" "Bearer".toList "tok".toList
      (by decide) rfl rfl rfl (by decide) (by decide) (by decide)).1
      ⟨true, []⟩ rfl
  · exact (C4_auth_no_signature_verification (fun _ => none)
      ⟨false, some "http://keycloak"⟩ ⟨"GET", some "Bearer tok"⟩ probe_view
      "http://keycloak" "Bearer tok" "Bearer".toList "tok".toList
      (by decide) rfl rfl rfl (by decide) (by decide) (by decide)).2 rfl

/-- C3 counterexample: the claim states every request to
POST /maintenance/status/update-bulk lacking the fleet-admin role is rejected
with 403 and the bulk recomputation does not run.  The flask_restx resource
BulkStatusUpdate at that path carries no require_auth and no require_role
decorator: a request with no Authorization header at all, hence certainly
without the role, is answered 200 and the service call runs. -/
theorem C3_counterexample :
    BulkStatusUpdate_post ⟨"POST", none⟩ 0
      = ⟨200, "Updated 0 maintenance items", true⟩ := rfl

/-- C3 amended: of the two registered handlers for
POST /maintenance/status/update-bulk, the blueprint route update_statuses_bulk
is role gated as the claim says: with auth enabled, an issuer configured and
a well-formed bearer token decoding to a truthy payload, a payload lacking
fleet-admin in its realm roles is answered 403 without the service call, and
one carrying the role reaches the service call; the flask_restx resource
BulkStatusUpdate.post, however, performs no authentication or role check and
always invokes the service. -/
theorem C3_bulk_role_gate_amended (decode : List Char → Option Payload)
    (cfg : AuthConfig) (req : HttpRequest) (iss h : String) (b t : List Char)
    (p : Payload) (n : Nat)
    (hm : req.method ≠ "OPTIONS") (hdis : cfg.authDisabled = false)
    (hiss : cfg.oidcIssuer = some iss) (hh : req.authHeader = some h)
    (hne : h ≠ "") (hsplit : pySplit h = [b, t])
    (hb : b.map Char.toLower = "bearer".toList)
    (hdec : decode t = some p) (htr : p.truthy = true) :
    ("fleet-admin" ∉ p.realmRoles →
      update_statuses_bulk decode cfg req n
        = abort403 "Insufficient permissions: fleet-admin role required") ∧
    ("fleet-admin" ∈ p.realmRoles →
      update_statuses_bulk decode cfg req n
        = ⟨200, "Updated " ++ toString n ++ " maintenance items", true⟩) ∧
    BulkStatusUpdate_post req n
      = ⟨200, "Updated " ++ toString n ++ " maintenance items", true⟩ := by
  have hauth := require_auth_issuer_decode decode cfg req
    (require_role "fleet-admin" cfg (bulk_view n)) iss h b t hm hdis hiss hh
    hne hsplit hb
  have hreach : update_statuses_bulk decode cfg req n
      = require_role "fleet-admin" cfg (bulk_view n) (some p) := by
    unfold update_statuses_bulk
    exact hauth.1 p hdec
  refine ⟨?_, ?_, rfl⟩
  · intro hrole
    rw [hreach]
    unfold require_role
    rw [hdis]
    simp only [Bool.false_eq_true, if_false, htr]
    simp [hrole]
  · intro hrole
    rw [hreach]
    unfold require_role
    rw [hdis]
    simp only [Bool.false_eq_true, if_false, htr]
    simp [hrole, bulk_view]

/-- Witness for C3 amended: with issuer http://keycloak, a bearer token
decoding to the roles list [viewer] is answered 403 by the blueprint route,
the same token with the roles list [fleet-admin] reaches the service call,
and the flask_restx resource answers 200 regardless. -/
theorem C3_bulk_role_gate_amended_witness :
    update_statuses_bulk (fun _ => some ⟨true, ["viewer"]⟩)
        ⟨false, some "http://keycloak"⟩ ⟨"POST", some "Bearer tok2"⟩ 3
      = abort403 "Insufficient permissions: fleet-admin role required" ∧
    update_statuses_bulk (fun _ => some ⟨true, ["fleet-admin"]⟩)
        ⟨false, some "http://keycloak"⟩ ⟨"POST", some "Bearer tok2"⟩ 3
      = ⟨200, "Updated 3 maintenance items", true⟩ ∧
    BulkStatusUpdate_post ⟨"POST", some "Bearer tok2"⟩ 3
      = ⟨200, "Updated 3 maintenance items", true⟩ := by
  refine ⟨?_, ?_, ?_⟩
  · exact (C3_bulk_role_gate_amended (fun _ => some ⟨true, ["viewer"]⟩)
      ⟨false, some "http://keycloak"⟩ ⟨"POST", some "Bearer tok2"⟩
      "http://keycloak" "Bearer tok2" "Bearer".toList "tok2".toList
      ⟨true, ["viewer"]⟩ 3 (by decide) rfl rfl rfl (by decide) (by decide)
      (by decide) rfl rfl).1 (by decide)
  · exact (C3_bulk_role_gate_amended (fun _ => some ⟨true, ["fleet-admin"]⟩)
      ⟨false, some "http://keycloak"⟩ ⟨"POST", some "Bearer tok2"⟩
      "http://keycloak" "Bearer tok2" "Bearer".toList "tok2".toList
      ⟨true, ["fleet-admin"]⟩ 3 (by decide) rfl rfl rfl (by decide)
      (by decide) (by decide) rfl rfl).2.1 (by decide)
  · exact (C3_bulk_role_gate_amended (fun _ => some ⟨true, ["fleet-admin"]⟩)
      ⟨false, some "http://keycloak"⟩ ⟨"POST", some "Bearer tok2"⟩
      "http://keycloak" "Bearer tok2" "Bearer".toList "tok2".toList
      ⟨true, ["fleet-admin"]⟩ 3 (by decide) rfl rfl rfl (by decide)
      (by decide) (by decide) rfl rfl).2.2

/-! ## The 500 path of the route handlers -/

/-- A response body as the routes build it: a success payload, or the JSON
object with the single error key (jsonify of a dict with key error). -/
inductive RouteBody (α : Type)
  | payload (value : α)
  | errorMsg (msg : String)
deriving DecidableEq

/-- The except-Exception arm shared by every blueprint route in
maintainance_route.py: the success arm returns the value with status 200, and
an uncaught exception returns jsonify of a dict whose error key holds str(e),
with status 500.  The service outcome is the Except argument, its error value
the exception text. -/
def blueprint_route_result (α : Type) (svc : Except String α) :
    Nat × RouteBody α :=
  match svc with
  | .ok v => (200, .payload v)
  | .error e => (500, .errorMsg e)

/-- The except-Exception arm shared by every flask_restx resource in
maintenance_api.py: api.abort(500, the text Internal server error followed by
a colon and str(e)). -/
def restx_route_result (α : Type) (svc : Except String α) :
    Nat × RouteBody α :=
  match svc with
  | .ok v => (200, .payload v)
  | .error e => (500, .errorMsg ("Internal server error: " ++ e))

/-- C8 counterexample: the claim states the underlying exception message is
not leaked to the caller beyond generic text, yet the blueprint 500 handler
returns str(e) verbatim as the error field: an exception whose text carries
internal connection details reaches the caller unchanged, and that text is
not the generic message. -/
theorem C8_counterexample :
    blueprint_route_result Nat
        (.error "connection to postgres at 10.0.0.5 refused")
      = (500, .errorMsg "connection to postgres at 10.0.0.5 refused") ∧
    "connection to postgres at 10.0.0.5 refused"
      ≠ "Internal server error" := ⟨rfl, by decide⟩

/-- C8 amended: every uncaught internal failure in a route handler produces a
500 with a structured JSON error body rather than being silently swallowed,
but the exception text is leaked: the blueprint routes return str(e) verbatim
as the error field, and the flask_restx resources return it prefixed with the
text Internal server error. -/
theorem C8_internal_error_amended (α : Type) (e : String) (v : α) :
    blueprint_route_result α (.error e) = (500, .errorMsg e) ∧
    restx_route_result α (.error e)
      = (500, .errorMsg ("Internal server error: " ++ e)) ∧
    blueprint_route_result α (.ok v) = (200, .payload v) ∧
    restx_route_result α (.ok v) = (200, .payload v) :=
  ⟨rfl, rfl, rfl, rfl⟩
